import Mathlib

/-!
Verification of the Songbird USB-loopback runtime control core.

The repository ships `src/config.h`: pin assignments, tuning constants, the
`SystemState` and `ButtonState` enums, the `ButtonInfo` struct and the status
message strings.  The control logic itself (state-machine transition function,
debounce poll, level-meter update, status-text selection) is declared and
configured there but implemented in a file not present under `src/`; those
operations are therefore modelled from the specification, as marked on each
definition.  Floating-point constants from the source (`0.01f`, `0.1f`,
`0.8f`) are embedded as the exact rationals they denote in the spec's
real-number formulas.
-/

namespace Songbird

/-- `enum SystemState` from src/config.h lines 56-60. -/
inductive SystemState where
  | STATE_STANDBY
  | STATE_ACTIVE
  | STATE_MUTED
deriving DecidableEq, Repr

/-- `enum ButtonState` from src/config.h lines 105-109. -/
inductive ButtonState where
  | BUTTON_IDLE
  | BUTTON_PRESSED
  | BUTTON_RELEASED
deriving DecidableEq, Repr

/-- The four physical buttons (src/config.h lines 33-36: BTN_UP_PIN,
BTN_DOWN_PIN, BTN_LEFT_PIN, BTN_RIGHT_PIN). -/
inductive ButtonId where
  | up
  | down
  | left
  | right
deriving DecidableEq, Repr

/-- Button edge events, from spec 4.1: `ButtonEvent ∈ {None, PressedEdge,
ReleasedEdge}`. -/
inductive ButtonEvent where
  | noEvent
  | pressedEdge
  | releasedEdge
deriving DecidableEq, Repr

-- Level detection parameters (src/config.h lines 69-74).
def LEVEL_THRESHOLD : ℚ := 1/100
def LEVEL_SMOOTHING : ℚ := 1/10
def LEVEL_BAR_SEGMENTS : ℤ := 8
def LEVEL_BAR_MAX : ℚ := 4/5

-- LED brightness constants (src/config.h lines 97-99).
def LED_BRIGHTNESS_OFF : ℤ := 0
def LED_BRIGHTNESS_MAX : ℤ := 255
def LED_BRIGHTNESS_MIN : ℤ := 8

-- Status message strings (src/config.h lines 137-140).
def STATUS_STANDBY : String := "Press UP to start"
def STATUS_ACTIVE : String := "USB Loopback Active"
def STATUS_MUTED : String := "Output Muted"
def STATUS_NO_USB : String := "Connect USB Audio"

/-- Clamp a rational into the interval [lo, hi]. -/
def clampQ (lo hi x : ℚ) : ℚ := min hi (max lo x)

/-- Clamp into [0, 1]. -/
def clamp01 (x : ℚ) : ℚ := clampQ 0 1 x

/-- Modelled from the spec: the Level Meter's `update` (spec 4.2 and 7),
absent from src/ (only the tuning constants are in config.h).  Out-of-range
raw magnitudes are clamped into [0,1] before smoothing; the exponentially
smoothed value is clamped into [0,1] after smoothing. -/
def levelUpdate (smoothed raw : ℚ) : ℚ :=
  clamp01 (smoothed + LEVEL_SMOOTHING * (clamp01 raw - smoothed))

/-- Modelled from the spec: bar-segment quantization (spec 4.2,
`segments = floor(clamp(smoothed, 0, bar_max) / bar_max * total_segments)`),
absent from src/ (only LEVEL_BAR_SEGMENTS and LEVEL_BAR_MAX are in
config.h). -/
def barSegments (smoothed : ℚ) : ℤ :=
  ⌊clampQ 0 LEVEL_BAR_MAX smoothed / LEVEL_BAR_MAX * (LEVEL_BAR_SEGMENTS : ℚ)⌋

/-- Modelled from the spec: LED brightness quantization (spec 4.2: below
LEVEL_THRESHOLD the LED is off, otherwise the level is mapped linearly into
[LED_BRIGHTNESS_MIN, LED_BRIGHTNESS_MAX]), absent from src/ (only the
brightness constants are in config.h). -/
def ledBrightness (smoothed : ℚ) : ℤ :=
  if smoothed < LEVEL_THRESHOLD then LED_BRIGHTNESS_OFF
  else LED_BRIGHTNESS_MIN +
    ⌊((LED_BRIGHTNESS_MAX - LED_BRIGHTNESS_MIN : ℤ) : ℚ) * smoothed⌋

/-- Modelled from the spec: the System State Machine's transition function
(spec 4.3), absent from src/ (only `enum SystemState` is in config.h).
One row per table entry; every unlisted (state, button, event) pair leaves
the state unchanged, including all Left/Right button events. -/
def transition (s : SystemState) (b : ButtonId) (e : ButtonEvent) : SystemState :=
  match s, b, e with
  | .STATE_STANDBY, .up, .releasedEdge => .STATE_ACTIVE
  | .STATE_ACTIVE, .up, .releasedEdge => .STATE_STANDBY
  | .STATE_ACTIVE, .down, .releasedEdge => .STATE_MUTED
  | .STATE_MUTED, .down, .releasedEdge => .STATE_ACTIVE
  | .STATE_MUTED, .up, .releasedEdge => .STATE_STANDBY
  | s, _, _ => s

/-- A (state, button, event) triple is listed in the spec 4.3 transition
table. -/
def listedInTable (s : SystemState) (b : ButtonId) (e : ButtonEvent) : Prop :=
  e = .releasedEdge ∧
    ((s = .STATE_STANDBY ∧ b = .up) ∨
     (s = .STATE_ACTIVE ∧ b = .up) ∨
     (s = .STATE_ACTIVE ∧ b = .down) ∨
     (s = .STATE_MUTED ∧ b = .down) ∨
     (s = .STATE_MUTED ∧ b = .up))

instance (s : SystemState) (b : ButtonId) (e : ButtonEvent) :
    Decidable (listedInTable s b e) := by
  unfold listedInTable; infer_instance

/-- `struct ButtonInfo` from src/config.h lines 115-123. -/
structure ButtonInfo where
  pin : ℤ
  current_state : ButtonState
  previous_state : ButtonState
  last_change_time : ℕ
  physical_state : Bool
  debounced_state : Bool
  name : String
deriving DecidableEq, Repr

/-- Modelled from the spec: first half of the Debounced Button's `poll`
(spec 4.1) — a raw reading that differs from `physical_state` records `now`
in `last_change_time` and updates `physical_state`, without being trusted
yet.  The poll logic itself is absent from src/ (only `ButtonInfo` and the
enums are in config.h). -/
def registerRaw (b : ButtonInfo) (raw : Bool) (now : ℕ) : ButtonInfo :=
  if raw ≠ b.physical_state then
    { b with physical_state := raw, last_change_time := now }
  else b

/-- Modelled from the spec: second half of the Debounced Button's `poll`
(spec 4.1) — once `physical_state` has been stable for at least the debounce
window `win` since `last_change_time`, commit it to `debounced_state`; a
commit false→true yields PressedEdge, true→false ReleasedEdge, otherwise
no event.  The public `current_state` is derived from the committed state:
BUTTON_PRESSED while debounced-pressed, BUTTON_RELEASED exactly on a
release-edge poll, BUTTON_IDLE otherwise; `previous_state` keeps the prior
`current_state`. -/
def commitStep (win : ℕ) (now : ℕ) (b1 : ButtonInfo) : ButtonInfo × ButtonEvent :=
  if b1.last_change_time + win ≤ now then
    let ev := if b1.debounced_state = b1.physical_state then ButtonEvent.noEvent
      else if b1.physical_state then ButtonEvent.pressedEdge
      else ButtonEvent.releasedEdge
    ({ b1 with
        debounced_state := b1.physical_state,
        previous_state := b1.current_state,
        current_state :=
          if ev = ButtonEvent.releasedEdge then ButtonState.BUTTON_RELEASED
          else if b1.physical_state then ButtonState.BUTTON_PRESSED
          else ButtonState.BUTTON_IDLE },
      ev)
  else
    ({ b1 with
        previous_state := b1.current_state,
        current_state :=
          if b1.debounced_state then ButtonState.BUTTON_PRESSED
          else ButtonState.BUTTON_IDLE },
      ButtonEvent.noEvent)

/-- Modelled from the spec: the Debounced Button's
`poll(raw_pin_reading, now) -> ButtonEvent` (spec 4.1), absent from src/.
`win` is the debounce window — a design constant the shown configuration
does not fix, so it is a parameter here. -/
def pollOnce (win : ℕ) (b : ButtonInfo) (raw : Bool) (now : ℕ) :
    ButtonInfo × ButtonEvent :=
  commitStep win now (registerRaw b raw now)

/-- Fold `pollOnce` over a trace of (raw reading, timestamp) polls,
collecting the emitted events in order. -/
def pollRun (win : ℕ) (b : ButtonInfo) :
    List (Bool × ℕ) → ButtonInfo × List ButtonEvent
  | [] => (b, [])
  | (r, t) :: rest =>
      let s := pollOnce win b r t
      let rs := pollRun win s.1 rest
      (rs.1, s.2 :: rs.2)

/-- Modelled from the spec: a raw trace "oscillates faster than the debounce
window" relative to an initial raw state `phys` last changed at `lc` when, at
every poll, strictly less than `win` has elapsed since the raw value last
changed. -/
def oscillating (win : ℕ) (phys : Bool) (lc : ℕ) : List (Bool × ℕ) → Bool
  | [] => true
  | (r, t) :: rest =>
      let lc1 := if r ≠ phys then t else lc
      decide (t < lc1 + win) && oscillating win r lc1 rest

/-- Modelled from the spec: the end-to-end scenario B level sequence
(spec 8.7) — smoothed level starting at 0 and updated each tick with the
constant raw magnitude 0.05. -/
def scenarioLevel : ℕ → ℚ
  | 0 => 0
  | n + 1 => levelUpdate (scenarioLevel n) (1/20)

/-- Modelled from the spec: status text selection (spec 4.3), absent from
src/ (only the four strings are in config.h).  A pure function of
(mode, USB-present); USB absent overrides the three mode strings. -/
def statusText (mode : SystemState) (usbPresent : Bool) : String :=
  if usbPresent then
    match mode with
    | .STATE_STANDBY => STATUS_STANDBY
    | .STATE_ACTIVE => STATUS_ACTIVE
    | .STATE_MUTED => STATUS_MUTED
  else STATUS_NO_USB

end Songbird

namespace Songbird

theorem clamp01_nonneg (x : ℚ) : 0 ≤ clamp01 x :=
  le_min (by norm_num) (le_max_left 0 x)

theorem clamp01_le_one (x : ℚ) : clamp01 x ≤ 1 :=
  min_le_left 1 _

theorem clamp01_of_mem (x : ℚ) (h0 : 0 ≤ x) (h1 : x ≤ 1) : clamp01 x = x := by
  unfold clamp01 clampQ
  rw [max_eq_right h0, min_eq_right h1]

theorem ledBrightness_of_lt_threshold (s : ℚ) (h : s < LEVEL_THRESHOLD) :
    ledBrightness s = LED_BRIGHTNESS_OFF := by
  unfold ledBrightness
  rw [if_pos h]

theorem le_ledBrightness_of_threshold_le (s : ℚ) (h : LEVEL_THRESHOLD ≤ s) :
    LED_BRIGHTNESS_MIN ≤ ledBrightness s := by
  unfold ledBrightness
  rw [if_neg (not_lt.mpr h)]
  have hs : (0 : ℚ) ≤ s := le_trans (by norm_num [LEVEL_THRESHOLD]) h
  have hfloor : 0 ≤ ⌊((LED_BRIGHTNESS_MAX - LED_BRIGHTNESS_MIN : ℤ) : ℚ) * s⌋ :=
    Int.floor_nonneg.mpr
      (mul_nonneg (by norm_num [LED_BRIGHTNESS_MAX, LED_BRIGHTNESS_MIN]) hs)
  omega

theorem ledBrightness_le_max (s : ℚ) (h1 : s ≤ 1) (h : LEVEL_THRESHOLD ≤ s) :
    ledBrightness s ≤ LED_BRIGHTNESS_MAX := by
  unfold ledBrightness
  rw [if_neg (not_lt.mpr h)]
  have hc : (0 : ℚ) ≤ ((LED_BRIGHTNESS_MAX - LED_BRIGHTNESS_MIN : ℤ) : ℚ) := by
    norm_num [LED_BRIGHTNESS_MAX, LED_BRIGHTNESS_MIN]
  have hle : ((LED_BRIGHTNESS_MAX - LED_BRIGHTNESS_MIN : ℤ) : ℚ) * s ≤
      ((LED_BRIGHTNESS_MAX - LED_BRIGHTNESS_MIN : ℤ) : ℚ) :=
    mul_le_of_le_one_right hc h1
  have := Int.floor_le_floor hle
  rw [Int.floor_intCast] at this
  omega

/-- After any single level update the smoothed value lies in [0, 1]. -/
theorem levelUpdate_mem (s raw : ℚ) :
    0 ≤ levelUpdate s raw ∧ levelUpdate s raw ≤ 1 :=
  ⟨clamp01_nonneg _, clamp01_le_one _⟩

theorem registerRaw_physical (b : ButtonInfo) (raw : Bool) (now : ℕ) :
    (registerRaw b raw now).physical_state = raw := by
  unfold registerRaw
  split
  · rfl
  · next h =>
      rw [not_ne_iff] at h
      rw [h]

theorem registerRaw_debounced (b : ButtonInfo) (raw : Bool) (now : ℕ) :
    (registerRaw b raw now).debounced_state = b.debounced_state := by
  unfold registerRaw
  split <;> rfl

theorem registerRaw_lc (b : ButtonInfo) (raw : Bool) (now : ℕ) :
    (registerRaw b raw now).last_change_time =
      if raw ≠ b.physical_state then now else b.last_change_time := by
  unfold registerRaw
  split <;> simp_all

theorem registerRaw_of_eq (b : ButtonInfo) (raw : Bool) (now : ℕ)
    (h : raw = b.physical_state) : registerRaw b raw now = b := by
  unfold registerRaw
  rw [if_neg (not_ne_iff.mpr h)]

theorem commitStep_snd (win now : ℕ) (b1 : ButtonInfo) :
    (commitStep win now b1).2 =
      if b1.last_change_time + win ≤ now then
        (if b1.debounced_state = b1.physical_state then ButtonEvent.noEvent
         else if b1.physical_state then ButtonEvent.pressedEdge
         else ButtonEvent.releasedEdge)
      else ButtonEvent.noEvent := by
  unfold commitStep
  split <;> rfl

theorem commitStep_deb (win now : ℕ) (b1 : ButtonInfo) :
    (commitStep win now b1).1.debounced_state =
      if b1.last_change_time + win ≤ now then b1.physical_state
      else b1.debounced_state := by
  unfold commitStep
  split <;> rfl

theorem commitStep_phys (win now : ℕ) (b1 : ButtonInfo) :
    (commitStep win now b1).1.physical_state = b1.physical_state := by
  unfold commitStep
  split <;> rfl

theorem commitStep_lc (win now : ℕ) (b1 : ButtonInfo) :
    (commitStep win now b1).1.last_change_time = b1.last_change_time := by
  unfold commitStep
  split <;> rfl

theorem commitStep_current (win now : ℕ) (b1 : ButtonInfo) :
    (commitStep win now b1).1.current_state =
      (if (commitStep win now b1).2 = ButtonEvent.releasedEdge then
        ButtonState.BUTTON_RELEASED
       else if (commitStep win now b1).1.debounced_state then
        ButtonState.BUTTON_PRESSED
       else ButtonState.BUTTON_IDLE) := by
  unfold commitStep
  split
  · rfl
  · rfl

theorem pollRun_nil (win : ℕ) (b : ButtonInfo) : pollRun win b [] = (b, []) := rfl

theorem pollRun_cons_fst (win : ℕ) (b : ButtonInfo) (r : Bool) (t : ℕ)
    (rest : List (Bool × ℕ)) :
    (pollRun win b ((r, t) :: rest)).1 =
      (pollRun win (pollOnce win b r t).1 rest).1 := rfl

theorem pollRun_cons_snd (win : ℕ) (b : ButtonInfo) (r : Bool) (t : ℕ)
    (rest : List (Bool × ℕ)) :
    (pollRun win b ((r, t) :: rest)).2 =
      (pollOnce win b r t).2 :: (pollRun win (pollOnce win b r t).1 rest).2 := rfl

theorem oscillating_cons (win : ℕ) (phys : Bool) (lc : ℕ) (r : Bool) (t : ℕ)
    (rest : List (Bool × ℕ)) :
    oscillating win phys lc ((r, t) :: rest) =
      (decide (t < (if r ≠ phys then t else lc) + win) &&
        oscillating win r (if r ≠ phys then t else lc) rest) := rfl

/-- Under an oscillating raw trace the debounced state never changes and no
event is emitted. -/
theorem pollRun_oscillating (win : ℕ) (trace : List (Bool × ℕ)) :
    ∀ b : ButtonInfo,
      oscillating win b.physical_state b.last_change_time trace = true →
      (pollRun win b trace).1.debounced_state = b.debounced_state ∧
        ∀ e ∈ (pollRun win b trace).2, e = ButtonEvent.noEvent := by
  induction trace with
  | nil =>
      intro b _
      rw [pollRun_nil]
      exact ⟨rfl, fun e he => absurd he (List.not_mem_nil e)⟩
  | cons p rest ih =>
      obtain ⟨r, t⟩ := p
      intro b h
      rw [oscillating_cons, Bool.and_eq_true, decide_eq_true_eq] at h
      have hlc1 : (registerRaw b r t).last_change_time =
          if r ≠ b.physical_state then t else b.last_change_time :=
        registerRaw_lc b r t
      have hnc : ¬((registerRaw b r t).last_change_time + win ≤ t) := by
        rw [hlc1]; exact not_le.mpr h.1
      have hev : (pollOnce win b r t).2 = ButtonEvent.noEvent := by
        unfold pollOnce; rw [commitStep_snd, if_neg hnc]
      have hdeb2 : (pollOnce win b r t).1.debounced_state = b.debounced_state := by
        unfold pollOnce; rw [commitStep_deb, if_neg hnc, registerRaw_debounced]
      have hphys2 : (pollOnce win b r t).1.physical_state = r := by
        unfold pollOnce; rw [commitStep_phys, registerRaw_physical]
      have hlc2 : (pollOnce win b r t).1.last_change_time =
          if r ≠ b.physical_state then t else b.last_change_time := by
        unfold pollOnce; rw [commitStep_lc, hlc1]
      have hrest := ih (pollOnce win b r t).1 (by rw [hphys2, hlc2]; exact h.2)
      refine ⟨?_, ?_⟩
      · rw [pollRun_cons_fst, hrest.1, hdeb2]
      · intro e he
        rw [pollRun_cons_snd] at he
        rcases List.mem_cons.mp he with h1 | h2
        · rw [h1, hev]
        · exact hrest.2 e h2

/-- From a state whose raw and debounced readings agree on `r`, a trace of
constant raw reading `r` emits no event and keeps both readings at `r`. -/
theorem pollRun_stable (win : ℕ) (r : Bool) (trace : List (Bool × ℕ)) :
    ∀ b : ButtonInfo, b.physical_state = r → b.debounced_state = r →
      (∀ x ∈ trace, x.1 = r) →
      ∀ e ∈ (pollRun win b trace).2, e = ButtonEvent.noEvent := by
  induction trace with
  | nil =>
      intro b _ _ _ e he
      rw [pollRun_nil] at he
      exact absurd he (List.not_mem_nil e)
  | cons p rest ih =>
      obtain ⟨r0, t⟩ := p
      intro b hphys hdeb hall e he
      have hr0 : r0 = r := hall (r0, t) (List.mem_cons_self _ _)
      subst hr0
      have hreg : registerRaw b r0 t = b :=
        registerRaw_of_eq b r0 t hphys.symm
      have hev : (pollOnce win b r0 t).2 = ButtonEvent.noEvent := by
        unfold pollOnce
        rw [hreg, commitStep_snd]
        split
        · rw [if_pos (hdeb.trans hphys.symm)]
        · rfl
      have hdeb2 : (pollOnce win b r0 t).1.debounced_state = r0 := by
        unfold pollOnce
        rw [hreg, commitStep_deb]
        split
        · exact hphys
        · exact hdeb
      have hphys2 : (pollOnce win b r0 t).1.physical_state = r0 := by
        unfold pollOnce
        rw [hreg, commitStep_phys]
        exact hphys
      rw [pollRun_cons_snd] at he
      rcases List.mem_cons.mp he with h1 | h2
      · rw [h1, hev]
      · exact ih (pollOnce win b r0 t).1 hphys2 hdeb2
          (fun x hx => hall x (List.mem_cons_of_mem _ hx)) e h2

/-- From a state where a raw reading `r` differing from the debounced state
has been registered, a trace holding `r` with some poll at or past the
debounce window emits exactly the one matching edge event. -/
theorem pollRun_pending (win : ℕ) (r : Bool) (trace : List (Bool × ℕ)) :
    ∀ b : ButtonInfo, b.physical_state = r → b.debounced_state ≠ r →
      (∀ x ∈ trace, x.1 = r) →
      (∃ x ∈ trace, b.last_change_time + win ≤ x.2) →
      (pollRun win b trace).2.filter (fun e => e != ButtonEvent.noEvent) =
        [if r then ButtonEvent.pressedEdge else ButtonEvent.releasedEdge] := by
  induction trace with
  | nil =>
      intro b _ _ _ hex
      obtain ⟨x, hx, -⟩ := hex
      exact absurd hx (List.not_mem_nil x)
  | cons p rest ih =>
      obtain ⟨r0, t⟩ := p
      intro b hphys hdeb hall hex
      have hr0 : r0 = r := hall (r0, t) (List.mem_cons_self _ _)
      subst hr0
      have hreg : registerRaw b r0 t = b :=
        registerRaw_of_eq b r0 t hphys.symm
      have hne : b.debounced_state ≠ b.physical_state := by
        rw [hphys]; exact hdeb
      by_cases hc : b.last_change_time + win ≤ t
      · have hev : (pollOnce win b r0 t).2 =
            (if r0 then ButtonEvent.pressedEdge else ButtonEvent.releasedEdge) := by
          unfold pollOnce
          rw [hreg, commitStep_snd, if_pos hc, if_neg hne, hphys]
        have hdeb2 : (pollOnce win b r0 t).1.debounced_state = r0 := by
          unfold pollOnce
          rw [hreg, commitStep_deb, if_pos hc]
          exact hphys
        have hphys2 : (pollOnce win b r0 t).1.physical_state = r0 := by
          unfold pollOnce
          rw [hreg, commitStep_phys]
          exact hphys
        have hrest : ∀ e ∈ (pollRun win (pollOnce win b r0 t).1 rest).2,
            e = ButtonEvent.noEvent :=
          pollRun_stable win r0 rest (pollOnce win b r0 t).1 hphys2 hdeb2
            (fun x hx => hall x (List.mem_cons_of_mem _ hx))
        have hfil : (pollRun win (pollOnce win b r0 t).1 rest).2.filter
            (fun e => e != ButtonEvent.noEvent) = [] := by
          rw [List.filter_eq_nil_iff]
          intro a ha
          rw [hrest a ha]
          decide
        rw [pollRun_cons_snd, List.filter_cons, hev]
        cases r0 <;> simp [hfil]
      · have hev : (pollOnce win b r0 t).2 = ButtonEvent.noEvent := by
          unfold pollOnce
          rw [hreg, commitStep_snd, if_neg hc]
        have hdeb2 : (pollOnce win b r0 t).1.debounced_state =
            b.debounced_state := by
          unfold pollOnce
          rw [hreg, commitStep_deb, if_neg hc]
        have hphys2 : (pollOnce win b r0 t).1.physical_state = r0 := by
          unfold pollOnce
          rw [hreg, commitStep_phys]
          exact hphys
        have hlc2 : (pollOnce win b r0 t).1.last_change_time =
            b.last_change_time := by
          unfold pollOnce
          rw [hreg, commitStep_lc]
        have hex2 : ∃ x ∈ rest,
            (pollOnce win b r0 t).1.last_change_time + win ≤ x.2 := by
          rw [hlc2]
          obtain ⟨x, hx, hxt⟩ := hex
          rcases List.mem_cons.mp hx with h1 | h2
          · rw [h1] at hxt
            exact absurd hxt hc
          · exact ⟨x, h2, hxt⟩
        rw [pollRun_cons_snd, List.filter_cons, hev]
        rw [if_neg (by decide)]
        exact ih (pollOnce win b r0 t).1 hphys2 (by rw [hdeb2]; exact hdeb)
          (fun x hx => hall x (List.mem_cons_of_mem _ hx)) hex2

/-- A ReleasedEdge can only be emitted from a debounced-pressed state, and
leaves the debounced state unpressed. -/
theorem pollOnce_released_facts (win : ℕ) (b : ButtonInfo) (raw : Bool)
    (now : ℕ) (h : (pollOnce win b raw now).2 = ButtonEvent.releasedEdge) :
    b.debounced_state = true ∧
      (pollOnce win b raw now).1.debounced_state = false := by
  unfold pollOnce at h ⊢
  rw [commitStep_snd] at h
  by_cases h1 : (registerRaw b raw now).last_change_time + win ≤ now
  · rw [if_pos h1] at h
    by_cases h2 : (registerRaw b raw now).debounced_state =
        (registerRaw b raw now).physical_state
    · rw [if_pos h2] at h
      cases h
    · rw [if_neg h2] at h
      cases hp : (registerRaw b raw now).physical_state with
      | true =>
          rw [hp] at h
          simp at h
      | false =>
          rw [hp, registerRaw_debounced] at h2
          refine ⟨?_, ?_⟩
          · simpa using h2
          · rw [commitStep_deb, if_pos h1, hp]
  · rw [if_neg h1] at h
    cases h

/-- The public current_state reads BUTTON_RELEASED only on a poll that
emitted a ReleasedEdge. -/
theorem pollOnce_current_released_imp (win : ℕ) (b : ButtonInfo) (raw : Bool)
    (now : ℕ)
    (h : (pollOnce win b raw now).1.current_state = ButtonState.BUTTON_RELEASED) :
    (pollOnce win b raw now).2 = ButtonEvent.releasedEdge := by
  unfold pollOnce at h ⊢
  rw [commitStep_current] at h
  by_cases he : (commitStep win now (registerRaw b raw now)).2 =
      ButtonEvent.releasedEdge
  · exact he
  · rw [if_neg he] at h
    split at h <;> simp at h

theorem clampQ_of_mem (lo hi x : ℚ) (h1 : lo ≤ x) (h2 : x ≤ hi) :
    clampQ lo hi x = x := by
  unfold clampQ
  rw [max_eq_right h1, min_eq_right h2]

/-- Closed form of the scenario B level sequence: after n ticks the smoothed
level is 1/20 * (1 - (9/10)^n). -/
theorem scenarioLevel_closed (n : ℕ) :
    scenarioLevel n = 1/20 * (1 - (9/10 : ℚ)^n) := by
  induction n with
  | zero =>
      show (0 : ℚ) = _
      norm_num
  | succ n ih =>
      have hq0 : (0:ℚ) < (9/10)^n := pow_pos (by norm_num) n
      have hq1 : ((9:ℚ)/10)^n ≤ 1 := pow_le_one₀ (by norm_num) (by norm_num)
      have hq0s : (0:ℚ) < (9/10)^(n+1) := pow_pos (by norm_num) (n+1)
      have hq1s : ((9:ℚ)/10)^(n+1) ≤ 1 := pow_le_one₀ (by norm_num) (by norm_num)
      show levelUpdate (scenarioLevel n) (1/20) = _
      rw [ih]
      unfold levelUpdate
      rw [clamp01_of_mem (1/20) (by norm_num) (by norm_num)]
      have key : (1:ℚ)/20 * (1 - (9/10)^n) +
          LEVEL_SMOOTHING * (1/20 - 1/20 * (1 - (9/10)^n)) =
          1/20 * (1 - (9/10)^(n+1)) := by
        simp only [LEVEL_SMOOTHING]
        rw [pow_succ]
        ring
      rw [key]
      exact clamp01_of_mem _ (by nlinarith) (by nlinarith)

/-- C1: the transition function is total (it is a Lean function on the full
product type, so every (state, button, event) pair yields a next state and
no error), matches each of the five rows of the spec 4.3 table exactly, and
leaves the state unchanged on every pair not listed in the table, including
all Left/Right button edges. -/
theorem transition_matches_table :
    (transition .STATE_STANDBY .up .releasedEdge = .STATE_ACTIVE) ∧
    (transition .STATE_ACTIVE .up .releasedEdge = .STATE_STANDBY) ∧
    (transition .STATE_ACTIVE .down .releasedEdge = .STATE_MUTED) ∧
    (transition .STATE_MUTED .down .releasedEdge = .STATE_ACTIVE) ∧
    (transition .STATE_MUTED .up .releasedEdge = .STATE_STANDBY) ∧
    (∀ (s : SystemState) (b : ButtonId) (e : ButtonEvent),
      ¬ listedInTable s b e → transition s b e = s) := by
  refine ⟨rfl, rfl, rfl, rfl, rfl, ?_⟩
  intro s b e h
  cases s <;> cases b <;> cases e <;> first
    | rfl
    | exact absurd (by unfold listedInTable; simp) h

/-- Witness for C1: a concrete unlisted pair (Muted, Left, ReleasedEdge)
leaves the state unchanged. -/
theorem transition_matches_table_witness :
    transition .STATE_MUTED .left .releasedEdge = .STATE_MUTED :=
  transition_matches_table.2.2.2.2.2 .STATE_MUTED .left .releasedEdge
    (by decide)

/-- C4: status text is a pure function of (mode, USB-present) onto the four
fixed strings: USB absent selects STATUS_NO_USB whatever the mode, and with
USB present each mode selects its own string. -/
theorem statusText_selection :
    (∀ mode : SystemState, statusText mode false = STATUS_NO_USB) ∧
    statusText .STATE_STANDBY true = STATUS_STANDBY ∧
    statusText .STATE_ACTIVE true = STATUS_ACTIVE ∧
    statusText .STATE_MUTED true = STATUS_MUTED :=
  ⟨fun mode => by cases mode <;> rfl, rfl, rfl, rfl⟩

/-- C9: the LED brightness constants of src/config.h are consistently
ordered inside the PWM range: 0 = OFF < MIN = 8 < MAX = 255, three distinct
values all within [0, 255]. -/
theorem led_brightness_constants_ordered :
    LED_BRIGHTNESS_OFF = 0 ∧ LED_BRIGHTNESS_MIN = 8 ∧
    LED_BRIGHTNESS_MAX = 255 ∧
    LED_BRIGHTNESS_OFF < LED_BRIGHTNESS_MIN ∧
    LED_BRIGHTNESS_MIN < LED_BRIGHTNESS_MAX ∧
    0 ≤ LED_BRIGHTNESS_OFF ∧ LED_BRIGHTNESS_MAX ≤ 255 := by
  refine ⟨rfl, rfl, rfl, ?_, ?_, ?_, ?_⟩ <;> decide

/-- C2: [0,1] is an invariant of the level meter: from any initial smoothed
value in [0,1], after any (arbitrarily long, arbitrarily out-of-range)
sequence of raw input magnitudes applied through the level update, the
smoothed level remains in [0,1]. -/
theorem level_bounds_invariant (raws : List ℚ) (s0 : ℚ)
    (h0 : 0 ≤ s0) (h1 : s0 ≤ 1) :
    0 ≤ raws.foldl levelUpdate s0 ∧ raws.foldl levelUpdate s0 ≤ 1 := by
  induction raws generalizing s0 with
  | nil => exact ⟨h0, h1⟩
  | cons r rs ih =>
      exact ih (levelUpdate s0 r) (levelUpdate_mem s0 r).1 (levelUpdate_mem s0 r).2

/-- Witness for C2: a concrete run with out-of-range inputs from smoothed
level 1/2 stays in [0,1]. -/
theorem level_bounds_invariant_witness :
    0 ≤ [(5 : ℚ), -3, 1/2].foldl levelUpdate (1/2) ∧
      [(5 : ℚ), -3, 1/2].foldl levelUpdate (1/2) ≤ 1 :=
  level_bounds_invariant [(5 : ℚ), -3, 1/2] (1/2) (by norm_num) (by norm_num)

/-- C5: below the threshold the LED brightness is exactly the off value; at
or above it, brightness lies in [LED_BRIGHTNESS_MIN, LED_BRIGHTNESS_MAX];
brightness is never strictly between off and the minimum visible value, and
is always within [0, 255]. -/
theorem ledBrightness_bounds (s : ℚ) (h0 : 0 ≤ s) (h1 : s ≤ 1) :
    (s < LEVEL_THRESHOLD → ledBrightness s = LED_BRIGHTNESS_OFF) ∧
    (LEVEL_THRESHOLD ≤ s →
      LED_BRIGHTNESS_MIN ≤ ledBrightness s ∧
        ledBrightness s ≤ LED_BRIGHTNESS_MAX) ∧
    ¬(LED_BRIGHTNESS_OFF < ledBrightness s ∧
        ledBrightness s < LED_BRIGHTNESS_MIN) ∧
    0 ≤ ledBrightness s ∧ ledBrightness s ≤ 255 := by
  refine ⟨ledBrightness_of_lt_threshold s,
    fun h => ⟨le_ledBrightness_of_threshold_le s h, ledBrightness_le_max s h1 h⟩,
    ?_⟩
  rcases lt_or_le s LEVEL_THRESHOLD with h | h
  · rw [ledBrightness_of_lt_threshold s h]
    exact ⟨fun hx => absurd hx.1 (lt_irrefl _),
      by norm_num [LED_BRIGHTNESS_OFF], by norm_num [LED_BRIGHTNESS_OFF]⟩
  · have hmin := le_ledBrightness_of_threshold_le s h
    have hmax := ledBrightness_le_max s h1 h
    have h8 : (0 : ℤ) ≤ LED_BRIGHTNESS_MIN := by norm_num [LED_BRIGHTNESS_MIN]
    have h255 : LED_BRIGHTNESS_MAX ≤ 255 := by norm_num [LED_BRIGHTNESS_MAX]
    exact ⟨fun hx => absurd hmin (not_le.mpr hx.2),
      le_trans h8 hmin, le_trans hmax h255⟩

/-- Witness for C5: at smoothed level 1/2 the brightness is within the
visible band [LED_BRIGHTNESS_MIN, LED_BRIGHTNESS_MAX]. -/
theorem ledBrightness_bounds_witness :
    LED_BRIGHTNESS_MIN ≤ ledBrightness (1/2) ∧
      ledBrightness (1/2) ≤ LED_BRIGHTNESS_MAX :=
  (ledBrightness_bounds (1/2) (by norm_num) (by norm_num)).2.1
    (by norm_num [LEVEL_THRESHOLD])

/-- C6: for the fixed configuration (bar_max = 0.8, 8 segments) the
bar-segment count is monotone non-decreasing in the smoothed level over
[0,1], and deterministic: the same level always yields the same count. -/
theorem barSegments_monotone :
    (∀ a b : ℚ, 0 ≤ a → a ≤ b → b ≤ 1 → barSegments a ≤ barSegments b) ∧
    ∀ s : ℚ, barSegments s = barSegments s := by
  refine ⟨?_, fun s => rfl⟩
  intro a b h0 hab h1
  apply Int.floor_le_floor
  have hclamp : clampQ 0 LEVEL_BAR_MAX a ≤ clampQ 0 LEVEL_BAR_MAX b :=
    min_le_min le_rfl (max_le_max le_rfl hab)
  have hdiv : clampQ 0 LEVEL_BAR_MAX a / LEVEL_BAR_MAX ≤
      clampQ 0 LEVEL_BAR_MAX b / LEVEL_BAR_MAX :=
    div_le_div_of_nonneg_right hclamp (by norm_num [LEVEL_BAR_MAX])
  exact mul_le_mul_of_nonneg_right hdiv (by norm_num [LEVEL_BAR_SEGMENTS])

/-- Witness for C6: segments at level 1/4 do not exceed segments at 1/2. -/
theorem barSegments_monotone_witness :
    barSegments (1/4) ≤ barSegments (1/2) :=
  barSegments_monotone.1 (1/4) (1/2) (by norm_num) (by norm_num) (by norm_num)

/-- C3: (a) for any raw trace in which, at every poll, less than the
debounce window has elapsed since the raw value last changed (raw value
oscillating faster than once per window), the debounced state never changes
and no edge event fires; (b) for a raw reading `r` that differs from the
debounced state, once `r` is registered and then held through polls of which
at least one falls at or beyond the debounce window, exactly one edge event
fires — PressedEdge if `r` is pressed, ReleasedEdge otherwise. -/
theorem debounce_stability :
    (∀ (win : ℕ) (b : ButtonInfo) (trace : List (Bool × ℕ)),
      oscillating win b.physical_state b.last_change_time trace = true →
      (pollRun win b trace).1.debounced_state = b.debounced_state ∧
        ∀ e ∈ (pollRun win b trace).2, e = ButtonEvent.noEvent) ∧
    (∀ (win : ℕ) (r : Bool) (b : ButtonInfo) (trace : List (Bool × ℕ)),
      b.physical_state = r → b.debounced_state ≠ r →
      (∀ x ∈ trace, x.1 = r) →
      (∃ x ∈ trace, b.last_change_time + win ≤ x.2) →
      (pollRun win b trace).2.filter (fun e => e != ButtonEvent.noEvent) =
        [if r then ButtonEvent.pressedEdge else ButtonEvent.releasedEdge]) :=
  ⟨fun win b trace h => pollRun_oscillating win trace b h,
   fun win r b trace h1 h2 h3 h4 => pollRun_pending win r trace b h1 h2 h3 h4⟩

/-- Witness for C3: a bouncing trace (changes every 3 ticks, window 10)
leaves the debounced state untouched and fires nothing; a pressed reading
registered at time 0 and held through a poll at time 12 (window 10) fires
exactly one PressedEdge. -/
theorem debounce_stability_witness :
    ((pollRun 10 ⟨5, ButtonState.BUTTON_IDLE, ButtonState.BUTTON_IDLE, 0,
          false, false, "up"⟩
        [(true, 3), (false, 6), (true, 9)]).1.debounced_state = false ∧
      ∀ e ∈ (pollRun 10 ⟨5, ButtonState.BUTTON_IDLE, ButtonState.BUTTON_IDLE,
          0, false, false, "up"⟩
        [(true, 3), (false, 6), (true, 9)]).2, e = ButtonEvent.noEvent) ∧
    (pollRun 10 ⟨5, ButtonState.BUTTON_IDLE, ButtonState.BUTTON_IDLE, 0,
          true, false, "up"⟩
        [(true, 5), (true, 12)]).2.filter (fun e => e != ButtonEvent.noEvent) =
      [ButtonEvent.pressedEdge] := by
  refine ⟨?_, ?_⟩
  · exact debounce_stability.1 10
      ⟨5, ButtonState.BUTTON_IDLE, ButtonState.BUTTON_IDLE, 0, false, false,
        "up"⟩
      [(true, 3), (false, 6), (true, 9)] (by decide)
  · exact debounce_stability.2 10 true
      ⟨5, ButtonState.BUTTON_IDLE, ButtonState.BUTTON_IDLE, 0, true, false,
        "up"⟩
      [(true, 5), (true, 12)] rfl (by decide) (by decide) (by decide)

/-- C7: no single poll returns both a PressedEdge and a ReleasedEdge; a
ReleasedEdge is only emitted from a debounced-pressed state; and the public
current_state value BUTTON_RELEASED never persists across two consecutive
polls. -/
theorem edge_exclusivity :
    (∀ (win : ℕ) (b : ButtonInfo) (raw : Bool) (now : ℕ),
      ¬((pollOnce win b raw now).2 = ButtonEvent.pressedEdge ∧
        (pollOnce win b raw now).2 = ButtonEvent.releasedEdge)) ∧
    (∀ (win : ℕ) (b : ButtonInfo) (raw : Bool) (now : ℕ),
      (pollOnce win b raw now).2 = ButtonEvent.releasedEdge →
        b.debounced_state = true) ∧
    (∀ (win : ℕ) (b : ButtonInfo) (raw raw2 : Bool) (now now2 : ℕ),
      (pollOnce win b raw now).1.current_state = ButtonState.BUTTON_RELEASED →
      (pollOnce win (pollOnce win b raw now).1 raw2 now2).1.current_state ≠
        ButtonState.BUTTON_RELEASED) := by
  refine ⟨?_, ?_, ?_⟩
  · intro win b raw now h
    obtain ⟨h1, h2⟩ := h
    rw [h1] at h2
    cases h2
  · intro win b raw now h
    exact (pollOnce_released_facts win b raw now h).1
  · intro win b raw raw2 now now2 h1 h2
    have he1 := pollOnce_current_released_imp win b raw now h1
    have he2 := pollOnce_current_released_imp win (pollOnce win b raw now).1
      raw2 now2 h2
    have hd1 := (pollOnce_released_facts win b raw now he1).2
    have hd2 := (pollOnce_released_facts win (pollOnce win b raw now).1
      raw2 now2 he2).1
    rw [hd1] at hd2
    cases hd2

/-- Witness for C7: a button debounced-pressed with a released reading
registered at time 0, polled at time 10 with window 5, fires a ReleasedEdge
from a pressed state, and on the following poll current_state is no longer
BUTTON_RELEASED. -/
theorem edge_exclusivity_witness :
    (⟨4, ButtonState.BUTTON_PRESSED, ButtonState.BUTTON_PRESSED, 0, false,
        true, "dn"⟩ : ButtonInfo).debounced_state = true ∧
    (pollOnce 5 (pollOnce 5 ⟨4, ButtonState.BUTTON_PRESSED,
        ButtonState.BUTTON_PRESSED, 0, false, true, "dn"⟩ false 10).1
      false 20).1.current_state ≠ ButtonState.BUTTON_RELEASED :=
  ⟨edge_exclusivity.2.1 5
    ⟨4, ButtonState.BUTTON_PRESSED, ButtonState.BUTTON_PRESSED, 0, false,
      true, "dn"⟩ false 10 rfl,
   edge_exclusivity.2.2 5
    ⟨4, ButtonState.BUTTON_PRESSED, ButtonState.BUTTON_PRESSED, 0, false,
      true, "dn"⟩ false false 10 20 rfl⟩

/-- C8: with smoothing factor 0.1, from smoothed level 0 under constant raw
magnitude 0.05, the level strictly increases, always stays below 0.05, and
converges toward 0.05 (the gap contracts by the factor 9/10 each tick); the
bar-segment count is 0 at every tick; and whenever the level reaches the
0.01 threshold the LED brightness is at least the minimum visible value. -/
theorem scenario_b (n : ℕ) :
    scenarioLevel n < scenarioLevel (n + 1) ∧
    scenarioLevel n < 1/20 ∧
    1/20 - scenarioLevel (n + 1) = (9/10) * (1/20 - scenarioLevel n) ∧
    barSegments (scenarioLevel n) = 0 ∧
    (LEVEL_THRESHOLD ≤ scenarioLevel n →
      LED_BRIGHTNESS_MIN ≤ ledBrightness (scenarioLevel n)) := by
  have hq0 : (0:ℚ) < (9/10)^n := pow_pos (by norm_num) n
  have hq1 : ((9:ℚ)/10)^n ≤ 1 := pow_le_one₀ (by norm_num) (by norm_num)
  have hdrop : ((9:ℚ)/10)^(n+1) < (9/10)^n := by
    rw [pow_succ]
    nlinarith
  have hcn := scenarioLevel_closed n
  have hcs := scenarioLevel_closed (n + 1)
  have h0s : 0 ≤ scenarioLevel n := by rw [hcn]; nlinarith
  have hlt : scenarioLevel n < 1/20 := by rw [hcn]; nlinarith
  refine ⟨?_, hlt, ?_, ?_, ?_⟩
  · rw [hcn, hcs]
    nlinarith
  · rw [hcn, hcs, pow_succ]
    ring
  · unfold barSegments
    have hval : clampQ 0 LEVEL_BAR_MAX (scenarioLevel n) / LEVEL_BAR_MAX *
        (LEVEL_BAR_SEGMENTS : ℚ) = scenarioLevel n * 10 := by
      rw [clampQ_of_mem 0 LEVEL_BAR_MAX (scenarioLevel n) h0s
        (by rw [hcn]; norm_num [LEVEL_BAR_MAX]; nlinarith)]
      simp only [LEVEL_BAR_MAX, LEVEL_BAR_SEGMENTS]
      push_cast
      ring
    rw [hval]
    rw [Int.floor_eq_zero_iff]
    constructor
    · nlinarith
    · nlinarith
  · intro h
    exact le_ledBrightness_of_threshold_le (scenarioLevel n) h

/-- Witness for C8: at tick 3 the smoothed level has crossed the 0.01
threshold, it is still increasing, and the LED brightness is at least the
minimum visible value. -/
theorem scenario_b_witness :
    scenarioLevel 3 < scenarioLevel 4 ∧
    LEVEL_THRESHOLD ≤ scenarioLevel 3 ∧
    LED_BRIGHTNESS_MIN ≤ ledBrightness (scenarioLevel 3) :=
  ⟨(scenario_b 3).1,
   by rw [scenarioLevel_closed]; norm_num [LEVEL_THRESHOLD],
   (scenario_b 3).2.2.2.2
     (by rw [scenarioLevel_closed]; norm_num [LEVEL_THRESHOLD])⟩

/-- C10: the four status message strings of src/config.h are pairwise
distinct, so the displayed text uniquely identifies the condition. -/
theorem status_strings_pairwise_distinct :
    STATUS_STANDBY ≠ STATUS_ACTIVE ∧ STATUS_STANDBY ≠ STATUS_MUTED ∧
    STATUS_STANDBY ≠ STATUS_NO_USB ∧ STATUS_ACTIVE ≠ STATUS_MUTED ∧
    STATUS_ACTIVE ≠ STATUS_NO_USB ∧ STATUS_MUTED ≠ STATUS_NO_USB := by
  refine ⟨?_, ?_, ?_, ?_, ?_, ?_⟩ <;> decide

end Songbird
